import Mathlib

/-!
Verification of the deep-journalist content-extraction and paywall-detection
pipeline, shallowly embedded from the repository sources:

  * src/app/scrapers/extractors/content_extractor.py  (the "extractors" variant)
  * src/app/scrapers/content_extractor.py             (the "scrapers" variant)
  * src/app/scrapers/bypass/paywall_bypass.py         (the "bypass" detector)
  * src/app/scrapers/base_scraper.py                  (CONTENT_SELECTORS)

HTML documents are modelled as node trees (the result of BeautifulSoup
parsing, which is external library code); the repository functions that walk
those trees are translated directly.  Python strings are modelled as
`List Char` where character-level reasoning is needed and as `String` at the
record boundaries.  BeautifulSoup semantics used by the sources:
`find`/`find_all`/`select_one` search descendants in document (preorder)
order; `get_text()` concatenates all descendant strings; a found `Tag` is
always truthy (`Tag.__bool__` returns True) while `None` is falsy.
-/

/-- An HTML node: an element with a tag name, attribute list and children,
or a text node (a BeautifulSoup NavigableString). -/
inductive HNode where
  | elem (tag : String) (attrs : List (String × String)) (children : List HNode)
  | text (s : String)

/-- A parsed document (the children of the BeautifulSoup root). -/
abbrev HDoc := List HNode

namespace HNode

/-- Attribute lookup, `tag.get(key)` / `tag[key]` on elements. -/
def attr (n : HNode) (key : String) : Option String :=
  match n with
  | .elem _ attrs _ => (attrs.find? (fun kv => kv.1 == key)).map (fun kv => kv.2)
  | .text _ => none

/-- Does this node carry the given tag name? (Text nodes match no name.) -/
def tagIs (t : String) (n : HNode) : Bool :=
  match n with
  | .elem tg _ _ => tg == t
  | .text _ => false

mutual
/-- `tag.get_text()`: concatenation of all descendant strings, in order. -/
def chars : HNode → List Char
  | .text s => s.toList
  | .elem _ _ cs => charsList cs

/-- `get_text()` over a list of sibling nodes, in order. -/
def charsList : List HNode → List Char
  | [] => []
  | n :: ns => chars n ++ charsList ns
end

mutual
/-- All nodes of a subtree in document (preorder) order, the node itself
included; this is the order BeautifulSoup searches in. -/
def allNodes : HNode → List HNode
  | .text s => [.text s]
  | .elem t a cs => .elem t a cs :: allNodesList cs

/-- Preorder node list of a forest of sibling subtrees. -/
def allNodesList : List HNode → List HNode
  | [] => []
  | n :: ns => allNodes n ++ allNodesList ns
end

/-- Descendants of a node, itself excluded: the search space of
`tag.find_all(...)` called on an element. -/
def descendants : HNode → List HNode
  | .text _ => []
  | .elem _ _ cs => allNodesList cs

end HNode

/-- `soup.find_all(pred)`: all matching nodes of the document in preorder. -/
def findAllDoc (doc : HDoc) (p : HNode → Bool) : List HNode :=
  (HNode.allNodesList doc).filter p

/-- `soup.find(pred)`: first matching node of the document, if any. -/
def findDoc (doc : HDoc) (p : HNode → Bool) : Option HNode :=
  (findAllDoc doc p).head?

/-- `soup.find(tagname)`. -/
def findTag (doc : HDoc) (t : String) : Option HNode :=
  findDoc doc (HNode.tagIs t)

/-- `soup.find_all(tagname)`. -/
def findAllTag (doc : HDoc) (t : String) : List HNode :=
  findAllDoc doc (HNode.tagIs t)

/-- `soup.get_text()`: all document text concatenated. -/
def docChars (doc : HDoc) : List Char :=
  HNode.charsList doc

/-- Python `a or b` on two `find` results.  A found Tag is always truthy
(bs4 defines `Tag.__bool__` as constantly True), `None` is falsy. -/
def pyOr (a b : Option HNode) : Option HNode :=
  match a with
  | some n => some n
  | none => b

/-- Python `str.lower()` (ASCII, which covers every string these heuristics
compare against). -/
def pyLower (l : List Char) : List Char := l.map Char.toLower

/-- Does the first list start the second one? -/
def leadsList : List Char → List Char → Bool
  | [], _ => true
  | _ :: _, [] => false
  | c :: cs, d :: ds => c == d && leadsList cs ds

/-- Python `needle in hay` on strings: contiguous-substring test. -/
def containsSub (hay needle : List Char) : Bool :=
  match hay with
  | [] => needle.isEmpty
  | c :: tl => leadsList needle (c :: tl) || containsSub tl needle

/-- The whitespace characters of Python `str.split()` / `str.strip()`. -/
def pyIsSpace (c : Char) : Bool :=
  c == ' ' || c == '\t' || c == '\n' || c == '\r' || c == '\x0b' || c == '\x0c'

/-- Accumulator pass behind `pySplitWs`. -/
def pySplitWsAux : List Char → List Char → List (List Char)
  | [], acc => if acc.isEmpty then [] else [acc.reverse]
  | c :: cs, acc =>
    if pyIsSpace c then
      if acc.isEmpty then pySplitWsAux cs [] else acc.reverse :: pySplitWsAux cs []
    else pySplitWsAux cs (c :: acc)

/-- Python `str.split()` with no argument: split on whitespace runs,
dropping empty tokens. -/
def pySplitWs (l : List Char) : List (List Char) :=
  pySplitWsAux l []

/-- Python `str.strip()`: drop leading and trailing whitespace. -/
def pyStrip (l : List Char) : List Char :=
  ((l.dropWhile pyIsSpace).reverse.dropWhile pyIsSpace).reverse

/-- Python `' '.join(tokens)`. -/
def joinSpace : List (List Char) → List Char
  | [] => []
  | [t] => t
  | t :: ts => t ++ ' ' :: joinSpace ts

/-! ## Paywall detection, extractors variant

`ContentExtractor._detect_paywall` in
src/app/scrapers/extractors/content_extractor.py. -/

/-- The `paywall_classes` vocabulary of `_detect_paywall`. -/
def paywallClasses : List String :=
  ["paywall", "subscription-required", "premium-content",
   "subscriber-only", "paid-content", "restricted-content"]

/-- The `paywall_text` phrase vocabulary of `_detect_paywall`. -/
def paywallTextPhrases : List String :=
  ["subscribe to continue", "subscription required", "premium article",
   "subscribe now", "sign up to read", "premium content",
   "subscribers only", "register to continue"]

/-- The matcher `lambda x: x and any(p in x.lower() for p in paywall_classes)`
applied to an element's class attribute (absent class never matches; the
paywall phrases contain no space, so matching the whole attribute value is
the same as matching any single class token). -/
def hasPaywallClass (n : HNode) : Bool :=
  match n.attr "class" with
  | some x => paywallClasses.any (fun p => containsSub (pyLower x.toList) p.toList)
  | none => false

/-- Check 1 of `_detect_paywall`: the `for element in soup.find_all(class_=...):
return True` loop fires exactly when the filtered node list is non-empty. -/
def extractorsCheckSelector (doc : HDoc) : Bool :=
  !(findAllDoc doc hasPaywallClass).isEmpty

/-- Check 2 of `_detect_paywall`:
`any(text in page_text for text in paywall_text)` over the case-folded full
document text. -/
def extractorsCheckKeyword (doc : HDoc) : Bool :=
  paywallTextPhrases.any (fun t => containsSub (pyLower (docChars doc)) t.toList)

/-- The action-word set `{'subscribe', 'sign in', 'log in', 'register'}`. -/
def actionWords : List String := ["subscribe", "sign in", "log in", "register"]

/-- `article.find_all(['button', 'a'])` element filter. -/
def isButtonOrLink (n : HNode) : Bool :=
  HNode.tagIs "button" n || HNode.tagIs "a" n

/-- `any(p in text for p in {...})` over a button's case-folded text. -/
def buttonHasActionWord (b : HNode) : Bool :=
  actionWords.any (fun w => containsSub (pyLower b.chars) w.toList)

/-- Check 3 of `_detect_paywall`: `article = soup.find('article') or soup`
(a found Tag and the soup itself are always truthy, so the `if article:`
guard always passes), then scan that region's buttons and links. -/
def extractorsCheckButtons (doc : HDoc) : Bool :=
  let buttons : List HNode :=
    match findTag doc "article" with
    | some a => a.descendants.filter isButtonOrLink
    | none => findAllDoc doc isButtonOrLink
  buttons.any buttonHasActionWord

/-- `ContentExtractor._detect_paywall`: the three checks in source order,
returning at the first positive one.  There is no short-content check in
this function. -/
def extractorsDetectPaywall (doc : HDoc) : Bool :=
  if extractorsCheckSelector doc then true
  else if extractorsCheckKeyword doc then true
  else if extractorsCheckButtons doc then true
  else false

/-! ## Paywall detection, bypass variant

`PaywallBypass.detect_paywall` in src/app/scrapers/bypass/paywall_bypass.py. -/

/-- A CSS selector of the shapes used in `PAYWALL_SELECTORS`: a class
selector `.c` or an id selector `#i`. -/
inductive CssSel where
  | byClass (c : String)
  | byId (i : String)

/-- Class-attribute token list (HTML splits `class` on whitespace). -/
def classTokens (v : String) : List (List Char) :=
  pySplitWs v.toList

/-- CSS matching for the two selector shapes: `.c` needs `c` among the class
tokens (exact, case-sensitive), `#i` needs an equal id attribute. -/
def selMatches (s : CssSel) (n : HNode) : Bool :=
  match s with
  | .byClass c =>
    match n.attr "class" with
    | some v => (classTokens v).any (fun t => t == c.toList)
    | none => false
  | .byId i => n.attr "id" == some i

/-- `PaywallBypass.PAYWALL_SELECTORS`. -/
def PAYWALL_SELECTORS : List CssSel :=
  [.byClass "paywall", .byClass "subscription-required",
   .byClass "premium-content", .byId "paywall-container",
   .byClass "register-wall", .byClass "paid-content"]

/-- `PaywallBypass.PAYWALL_INDICATORS`. -/
def PAYWALL_INDICATORS : List String :=
  ["subscribe", "subscription", "premium", "paid content", "members only",
   "sign up to read", "register to continue", "paid subscribers only"]

/-- First block of `detect_paywall`: `if soup.select_one(selector): return
True` over `PAYWALL_SELECTORS` (a found Tag is truthy). -/
def bypassCheckSelectors (doc : HDoc) : Bool :=
  PAYWALL_SELECTORS.any (fun s => (findDoc doc (selMatches s)).isSome)

/-- Second block of `detect_paywall`: any indicator phrase inside the
case-folded full document text. -/
def bypassCheckIndicators (doc : HDoc) : Bool :=
  PAYWALL_INDICATORS.any (fun ind => containsSub (pyLower (docChars doc)) ind.toList)

/-- Third block of `detect_paywall`:
`article = soup.find('article') or soup.find('main'); if article:` then
`len(article.find_all('p')) <= 3`.  When neither an article nor a main
element exists the block is skipped. -/
def bypassCheckShort (doc : HDoc) : Bool :=
  match pyOr (findTag doc "article") (findTag doc "main") with
  | some a => (a.descendants.filter (HNode.tagIs "p")).length ≤ 3
  | none => false

/-- `PaywallBypass.detect_paywall`.  The leading `if not html: return False`
guard is modelled by the parsed document being empty. -/
def bypassDetectPaywall (doc : HDoc) : Bool :=
  if doc.isEmpty then false
  else if bypassCheckSelectors doc then true
  else if bypassCheckIndicators doc then true
  else if bypassCheckShort doc then true
  else false

/-- The reason categories `detect_paywall` logs before each `return True`. -/
inductive BypassReason where
  | selectorMatch
  | indicatorMatch
  | limitedContent
deriving DecidableEq

/-- `detect_paywall` instrumented with the logged reason of the first
positive check (`None` when the verdict is open). -/
def bypassDetectReason (doc : HDoc) : Option BypassReason :=
  if doc.isEmpty then none
  else if bypassCheckSelectors doc then some .selectorMatch
  else if bypassCheckIndicators doc then some .indicatorMatch
  else if bypassCheckShort doc then some .limitedContent
  else none

/-! ## Content cleaning, extractors variant

The string-processing steps of `ContentExtractor._clean_content`. -/

/-- The single-character alternatives of the URL regex in `_clean_content`:
`[a-zA-Z]|[0-9]|[$-_@.&+]|[!*\(\),]` — `[$-_]` is the byte range 0x24–0x5f,
which subsumes the `@.&+` and `%hh` alternatives. -/
def urlChar (c : Char) : Bool :=
  ('a' ≤ c && c ≤ 'z') || ('A' ≤ c && c ≤ 'Z') || ('0' ≤ c && c ≤ '9')
  || (0x24 ≤ c.toNat && c.toNat ≤ 0x5f)
  || c == '!' || c == '*' || c == '\\' || c == '(' || c == ')' || c == ','

/-- `re.sub(r'http[s]?://(?:...)+', '', text)`: left-to-right scan deleting
every maximal `http://`/`https://` head followed by a non-empty greedy run
of URL characters; a position where the scheme matches but no URL character
follows is not a match, so the scanner advances one character. -/
def removeURLs : List Char → List Char
  | 'h' :: 't' :: 't' :: 'p' :: 's' :: ':' :: '/' :: '/' :: rest =>
    if (rest.takeWhile urlChar).isEmpty then
      'h' :: removeURLs ('t' :: 't' :: 'p' :: 's' :: ':' :: '/' :: '/' :: rest)
    else removeURLs (rest.dropWhile urlChar)
  | 'h' :: 't' :: 't' :: 'p' :: ':' :: '/' :: '/' :: rest =>
    if (rest.takeWhile urlChar).isEmpty then
      'h' :: removeURLs ('t' :: 't' :: 'p' :: ':' :: '/' :: '/' :: rest)
    else removeURLs (rest.dropWhile urlChar)
  | c :: cs => c :: removeURLs cs
  | [] => []
termination_by l => l.length
decreasing_by
  all_goals simp only [List.length_cons]
  all_goals first
    | omega
    | (have h := (List.dropWhile_sublist (l := rest) urlChar).length_le; omega)

/-- Python `\w` for the ASCII range: letters, digits, underscore. -/
def pyWordChar (c : Char) : Bool := c.isAlphanum || c == '_'

/-- The kept characters of `re.sub(r'[^\w\s.,!?-]', '', text)`. -/
def keepChar (c : Char) : Bool :=
  pyWordChar c || pyIsSpace c || c == '.' || c == ',' || c == '!' || c == '?' || c == '-'

/-- `re.sub(r'[^\w\s.,!?-]', '', text)` is a character filter. -/
def removeSpecial (l : List Char) : List Char := l.filter keepChar

/-- The string-processing tail of `ContentExtractor._clean_content`.  Its
argument stands for `soup.get_text(separator=' ')` computed after the
script/style/nav/header/footer decompose pass (the re-parse is BeautifulSoup
library code and is abstracted as this function's input). -/
def cleanContentText (text : List Char) : List Char :=
  -- text = ' '.join(text.split())
  let t1 := joinSpace (pySplitWs text)
  -- text = re.sub(urlPattern, '', text)
  let t2 := removeURLs t1
  -- text = re.sub(r'[^\w\s.,!?-]', '', text)
  let t3 := removeSpecial t2
  -- return text.strip()
  pyStrip t3

/-! ## Metadata extraction, extractors variant

`_extract_author` / `_extract_date` / `_extract_canonical_url` in
src/app/scrapers/extractors/content_extractor.py. -/

mutual
/-- The descendant strings of a node, in document order. -/
def HNode.frags : HNode → List (List Char)
  | .text s => [s.toList]
  | .elem _ _ cs => HNode.fragsList cs

/-- Descendant strings of a forest of sibling subtrees. -/
def HNode.fragsList : List HNode → List (List Char)
  | [] => []
  | n :: ns => HNode.frags n ++ HNode.fragsList ns
end

/-- `tag.get_text(strip=True)`: each descendant string stripped, the results
joined with no separator (so dropping the empties changes nothing). -/
def charsStripped (n : HNode) : List Char :=
  ((HNode.frags n).map pyStrip).flatten

/-- `soup.find('meta', {attrKey: attrVal})`. -/
def findMetaWith (doc : HDoc) (attrKey attrVal : String) : Option HNode :=
  findDoc doc (fun n => HNode.tagIs "meta" n && n.attr attrKey == some attrVal)

/-- `tag.get(key)` filtered by Python truthiness, as in
`if tag.get(key): ... tag[key]`: a present, non-empty attribute value. -/
def truthyAttr (n : HNode) (key : String) : Option String :=
  match n.attr key with
  | some v => if v ≠ "" then some v else none
  | none => none

/-- `re.compile(r'byline|author')` searched (case-sensitively, the pattern is
compiled without flags) against an element's class attribute; both words are
space-free, so matching the whole attribute value and matching any single
class token coincide. -/
def bylineClass (n : HNode) : Bool :=
  match n.attr "class" with
  | some v => containsSub v.toList "byline".toList || containsSub v.toList "author".toList
  | none => false

/-- `ContentExtractor._extract_author`: `meta[name=author]` content, else
`meta[property=article:author]` content, else the stripped text of the first
byline/author-classed element, else the empty string.  Each meta branch is
taken only when the tag exists and its content attribute is truthy. -/
def extractorsExtractAuthor (doc : HDoc) : String :=
  match (findMetaWith doc "name" "author").bind (fun m => truthyAttr m "content") with
  | some v => v
  | none =>
    match (findMetaWith doc "property" "article:author").bind (fun m => truthyAttr m "content") with
    | some v => v
    | none =>
      match findDoc doc bylineClass with
      | some b => String.mk (charsStripped b)
      | none => ""

/-- The name vocabulary of the `_extract_date` meta loop. -/
def dateMetaNames : List String := ["date", "article:published_time", "publication_date"]

/-- `ContentExtractor._extract_date`: the first `<meta>` whose name attribute
is in `dateMetaNames` yields `meta.get('content', '')`; otherwise the first
`<time>` tag with a truthy datetime attribute yields it; otherwise the empty
string. -/
def extractorsExtractDate (doc : HDoc) : String :=
  match (findAllTag doc "meta").find?
      (fun m => (m.attr "name").any (fun v => dateMetaNames.contains v)) with
  | some m => (m.attr "content").getD ""
  | none =>
    match findTag doc "time" with
    | some t =>
      match truthyAttr t "datetime" with
      | some v => v
      | none => ""
    | none => ""

/-- `ContentExtractor._extract_canonical_url`: the truthy href of
`<link rel=canonical>`, else the empty string (`rel` is modelled as the raw
single-token attribute value). -/
def extractorsExtractCanonical (doc : HDoc) : String :=
  match findDoc doc (fun n => HNode.tagIs "link" n && n.attr "rel" == some "canonical") with
  | some l =>
    match truthyAttr l "href" with
    | some v => v
    | none => ""
  | none => ""

/-! ## The extractors pipeline record -/

/-- The metadata dict built inside the extractors `extract_content`. -/
structure ExtractorsMetadata where
  title : String
  author : String
  date : String
  canonical_url : String
deriving DecidableEq

/-- The dict returned by the extractors `extract_content`. -/
structure ExtractionResult where
  content : String
  metadata : ExtractorsMetadata
  word_count : Nat
  has_paywall : Bool
deriving DecidableEq

/-- Python `x or ''` on a string: the string when non-empty, else `''`
(which is the string again) — written out as in the source. -/
def pyOrEmpty (s : String) : String := if s ≠ "" then s else ""

/-- `ContentExtractor.extract_content` (extractors variant), non-test path.
`readability.Document` is external library code: its `summary()` and
`title()` outputs enter as the `summary` and `docTitle` arguments, and the
BeautifulSoup re-parse inside `_clean_content` is abstracted as the function
argument `getTextOfHtml` (from an html string to the text that
`get_text(separator=' ')` yields after the decompose pass).  `doc` is the
BeautifulSoup parse of the input html after the script/style/iframe
decompose loop. -/
def extractorsExtractContent (getTextOfHtml : String → List Char)
    (doc : HDoc) (summary : String) (docTitle : String) : ExtractionResult :=
  -- has_paywall = self._detect_paywall(soup)
  let has_paywall := extractorsDetectPaywall doc
  -- content = doc.summary(); if not content: join the article texts
  let contentHtml : String :=
    if summary ≠ "" then summary
    else
      let articles := findAllTag doc "article"
      if articles.isEmpty then summary
      else String.mk (joinSpace (articles.map HNode.chars))
  -- content = self._clean_content(content)
  let content := String.mk (cleanContentText (getTextOfHtml contentHtml))
  { content := content
    metadata :=
      { title := pyOrEmpty docTitle                        -- doc.title() or ''
        author := pyOrEmpty (extractorsExtractAuthor doc)  -- ... or ''
        date := extractorsExtractDate doc
        canonical_url := pyOrEmpty (extractorsExtractCanonical doc) }
    word_count := (pySplitWs content.toList).length        -- len(content.split())
    has_paywall := has_paywall }

/-! ## The scrapers variant

`ContentExtractor` in src/app/scrapers/content_extractor.py. -/

/-- `re.sub(r'\s+', ' ', content)`: every whitespace run becomes one space. -/
def collapseWs : List Char → List Char
  | [] => []
  | c :: cs =>
    if pyIsSpace c then ' ' :: collapseWs (cs.dropWhile pyIsSpace)
    else c :: collapseWs cs
termination_by l => l.length
decreasing_by
  all_goals simp only [List.length_cons]
  all_goals first
    | omega
    | exact Nat.lt_succ_of_le ((List.dropWhile_sublist _).length_le)

/-- Python `str.splitlines()` for the line breaks that can occur here:
`\r\n`, `\r` and `\n` all end a line, and a trailing break opens no new
empty line. -/
def pySplitlinesAux : List Char → List Char → List (List Char)
  | [], acc => if acc.isEmpty then [] else [acc.reverse]
  | '\r' :: '\n' :: cs, acc => acc.reverse :: pySplitlinesAux cs []
  | '\r' :: cs, acc => acc.reverse :: pySplitlinesAux cs []
  | '\n' :: cs, acc => acc.reverse :: pySplitlinesAux cs []
  | c :: cs, acc => pySplitlinesAux cs (c :: acc)
termination_by l _ => l.length
decreasing_by all_goals simp_arith

/-- `content.splitlines()`. -/
def pySplitlines (l : List Char) : List (List Char) :=
  pySplitlinesAux l []

/-- Python `'\n'.join(lines)`. -/
def joinNl : List (List Char) → List Char
  | [] => []
  | [t] => t
  | t :: ts => t ++ '\n' :: joinNl ts

/-- `ContentExtractor.clean_content` (scrapers variant): collapse whitespace
runs to single spaces, keep the stripped non-blank lines joined by newlines
(`'\n'.join(line.strip() for line in content.splitlines() if line.strip())`),
then strip. -/
def scrapersCleanContent (content : List Char) : List Char :=
  let c1 := collapseWs content
  let c2 := joinNl (((pySplitlines c1).map pyStrip).filter (fun l => !l.isEmpty))
  pyStrip c2

/-- `ContentExtractor._extract_main_content` (scrapers variant): the text of
the first `article` element if one exists, else of the first `main`, else of
the `body`, else the empty string.  A found Tag is always truthy, so each
`if ...:` returns whatever text that element has, empty or not. -/
def scrapersExtractMainContent (doc : HDoc) : List Char :=
  match findTag doc "article" with
  | some a => a.chars
  | none =>
    match findTag doc "main" with
    | some m => m.chars
    | none =>
      match findTag doc "body" with
      | some b => b.chars
      | none => []

/-- The metadata dict of the scrapers `extract_metadata`: note the `date`
field is initialised to `None`, every other field to the empty string. -/
structure ScrapersMetadata where
  title : String
  author : String
  date : Option String
  description : String
deriving DecidableEq

/-- The field loop of the scrapers `extract_metadata`: for each name,
`meta = soup.find('meta', attrs={"name": name}) or soup.find('meta',
attrs={"property": name})`; the first meta that exists and has a truthy
content attribute supplies the value and breaks, otherwise the loop goes on. -/
def scrapersMetaLookup (doc : HDoc) : List String → Option String
  | [] => none
  | name :: rest =>
    match pyOr (findMetaWith doc "name" name) (findMetaWith doc "property" name) with
    | some m =>
      match truthyAttr m "content" with
      | some v => some v
      | none => scrapersMetaLookup doc rest
    | none => scrapersMetaLookup doc rest

/-- `ContentExtractor.extract_metadata` (scrapers variant): title is the
stripped `<title>` text when that tag exists; author, description and date
come from the `meta_mappings` loops; unresolved fields keep their initial
values — the empty string, except `date`, which stays `None`. -/
def scrapersExtractMetadata (doc : HDoc) : ScrapersMetadata :=
  { title :=
      match findTag doc "title" with
      | some t => String.mk (pyStrip t.chars)
      | none => ""
    author := (scrapersMetaLookup doc ["author", "article:author"]).getD ""
    date := scrapersMetaLookup doc ["article:published_time", "date", "pubdate"]
    description := (scrapersMetaLookup doc ["description", "og:description"]).getD "" }

/-- The two `ValueError`s the scrapers `extract_content` raises. -/
inductive ScrapeError where
  | emptyHtml        -- ValueError("Empty HTML content")
  | contentTooShort  -- ValueError("Content length ... below minimum ...")
deriving DecidableEq

/-- The dict returned by the scrapers `extract_content`. -/
structure ScrapersResult where
  content : String
  metadata : ScrapersMetadata
  extracted_at : String
deriving DecidableEq

/-- `ContentExtractor.extract_content` (scrapers variant).  `now` stands for
`datetime.now().isoformat()`, the wall-clock value read at the return
statement; the `if not html:` guard is modelled by the parsed document being
empty. -/
def scrapersExtractContent (minLength : Nat) (doc : HDoc) (now : String) :
    Except ScrapeError ScrapersResult :=
  if doc.isEmpty then .error .emptyHtml
  else
    let content := scrapersCleanContent (scrapersExtractMainContent doc)
    if content.length < minLength then .error .contentTooShort
    else .ok { content := String.mk content
               metadata := scrapersExtractMetadata doc
               extracted_at := now }

/-! ## The `_extract_metadata` list-subscript fault

`BaseScraper.CONTENT_SELECTORS` with the extractors variant's
`_extract_metadata` and `_parse_article`. -/

/-- `BaseScraper.CONTENT_SELECTORS`: a Python list of selector strings. -/
def CONTENT_SELECTORS : List String :=
  ["article", "main", "[role='main']", ".article-content", ".post-content",
   ".entry-content", "#content", ".content"]

/-- A Python subscript key as used on sequences: an int or a string. -/
inductive PyKey where
  | int (n : Int)
  | str (s : String)

/-- The Python errors reachable in the modelled fragment. -/
inductive PyError where
  | typeError   -- list indices must be integers or slices, not str
  | indexError  -- list index out of range
deriving DecidableEq

/-- Python list subscription `l[k]`: an int key indexes the list (negative
values count from the end), a string key raises `TypeError`. -/
def pySubscript (l : List String) (k : PyKey) : Except PyError String :=
  match k with
  | .int n =>
    let i : Int := if n < 0 then n + l.length else n
    if h : 0 ≤ i ∧ i.toNat < l.length then .ok (l.get ⟨i.toNat, h.2⟩)
    else .error .indexError
  | .str _ => .error .typeError

/-- `ContentExtractor._extract_metadata` (extractors variant): the first
thing it evaluates is `self.CONTENT_SELECTORS[field]` with the string
`field`, and `CONTENT_SELECTORS` is the list inherited from `BaseScraper`;
the `select_one` loop after it is dead for every string key, so the
would-be loop result is irrelevant and modelled as `none`. -/
def extractorsExtractMetadataField (_doc : HDoc) (field : String) :
    Except PyError (Option String) :=
  match pySubscript CONTENT_SELECTORS (.str field) with
  | .error e => .error e
  | .ok _sel => .ok none

/-- The metadata lines of `ContentExtractor._parse_article`:
`author = self._extract_metadata(soup, "author")` then
`date = self._extract_metadata(soup, "date")`; the surrounding `except`
clause only logs and re-raises, and the later link-extraction and
dict-building steps sit after these lines, so nothing past a raise is
modelled. -/
def parseArticleMeta (doc : HDoc) : Except PyError (Option String × Option String) := do
  let author ← extractorsExtractMetadataField doc "author"
  let date ← extractorsExtractMetadataField doc "date"
  return (author, date)

/-! ## Decidable equality for nodes -/

mutual
/-- Decidable equality for nodes (the derive handler does not support this
nested inductive). -/
def HNode.decEq : (a b : HNode) → Decidable (a = b)
  | .elem t1 a1 c1, .elem t2 a2 c2 =>
    if h1 : t1 = t2 then
      if h2 : a1 = a2 then
        match HNode.decEqList c1 c2 with
        | isTrue h3 => isTrue (by rw [h1, h2, h3])
        | isFalse h3 => isFalse (by intro hh; injection hh with e1 e2 e3; exact h3 e3)
      else isFalse (by intro hh; injection hh with e1 e2 e3; exact h2 e2)
    else isFalse (by intro hh; injection hh with e1 e2 e3; exact h1 e1)
  | .elem _ _ _, .text _ => isFalse (by intro hh; exact HNode.noConfusion hh)
  | .text _, .elem _ _ _ => isFalse (by intro hh; exact HNode.noConfusion hh)
  | .text s, .text t =>
    if h : s = t then isTrue (by rw [h])
    else isFalse (by intro hh; injection hh with e; exact h e)

/-- Decidable equality for node lists. -/
def HNode.decEqList : (xs ys : List HNode) → Decidable (xs = ys)
  | [], [] => isTrue rfl
  | [], _ :: _ => isFalse (by intro hh; exact List.noConfusion hh)
  | _ :: _, [] => isFalse (by intro hh; exact List.noConfusion hh)
  | x :: xs, y :: ys =>
    match HNode.decEq x y with
    | isTrue h1 =>
      match HNode.decEqList xs ys with
      | isTrue h2 => isTrue (by rw [h1, h2])
      | isFalse h2 => isFalse (by intro hh; injection hh with e1 e2; exact h2 e2)
    | isFalse h1 => isFalse (by intro hh; injection hh with e1 e2; exact h1 e1)
end

instance : DecidableEq HNode := HNode.decEq

/-! ## The spec's main-content locator, for refinement comparison -/

/-- Modelled from the spec (§4.3 Main-Content Locator), for comparison with
the source's `_extract_main_content`: try `article`, `main`, `[role=main]`,
then the known content class names, in that order; a candidate is taken only
when its text is non-empty; the texts of all `article` elements are
concatenated when several exist; fall back to the full document body text
when nothing matches. -/
def specLocateContent (doc : HDoc) : List Char :=
  let candidates : List (Option (List Char)) :=
    [ (if (findAllTag doc "article").isEmpty then none
       else some (joinSpace ((findAllTag doc "article").map HNode.chars))),
      (findTag doc "main").map HNode.chars,
      (findDoc doc (fun n => n.attr "role" == some "main")).map HNode.chars,
      (findDoc doc (selMatches (.byClass "article-content"))).map HNode.chars,
      (findDoc doc (selMatches (.byClass "post-content"))).map HNode.chars,
      (findDoc doc (selMatches (.byClass "entry-content"))).map HNode.chars,
      (findDoc doc (selMatches (.byId "content"))).map HNode.chars,
      (findDoc doc (selMatches (.byClass "content"))).map HNode.chars ]
  match ((candidates.filterMap id).filter (fun t => !t.isEmpty)).head? with
  | some t => t
  | none =>
    match findTag doc "body" with
    | some b => b.chars
    | none => docChars doc

/-- A concrete stand-in for the abstract `getTextOfHtml` re-parse when the
content html carries no markup: parsing plain text yields the text itself. -/
def plainText (s : String) : List Char := s.toList

/-! ## Concrete documents used by the claim theorems -/

/-- Four-paragraph article with a log-in link and no paywall markers. -/
def c1docButtons : HDoc :=
  [HNode.elem "html" [] [HNode.elem "body" [] [HNode.elem "article" []
    [HNode.elem "p" [] [HNode.text "One fine town."],
     HNode.elem "p" [] [HNode.text "Two tall oaks."],
     HNode.elem "p" [] [HNode.text "Three old mills."],
     HNode.elem "p" [] [HNode.text "Four new roads."],
     HNode.elem "a" [("href", "/account")] [HNode.text "Log in"]]]]]

/-- One-paragraph main region with no paywall markers and no buttons. -/
def c1docShort : HDoc :=
  [HNode.elem "html" [] [HNode.elem "body" [] [HNode.elem "main" []
    [HNode.elem "p" [] [HNode.text "A calm day."]]]]]

/-- Two-paragraph article with no paywall markers, for the C1 witness. -/
def c1witDoc : HDoc :=
  [HNode.elem "article" []
    [HNode.elem "p" [] [HNode.text "Dawn mist."],
     HNode.elem "p" [] [HNode.text "Quiet port."]]]

/-- A document with one paragraph and neither an article nor a main element. -/
def c3openDoc : HDoc :=
  [HNode.elem "html" [] [HNode.elem "body" []
    [HNode.elem "p" [] [HNode.text "hello"]]]]

/-- Three-paragraph article with no paywall markers, for the C3 witness. -/
def c3witDoc : HDoc :=
  [HNode.elem "html" [] [HNode.elem "body" [] [HNode.elem "article" []
    [HNode.elem "p" [] [HNode.text "Rain fell."],
     HNode.elem "p" [] [HNode.text "Boats came home."],
     HNode.elem "p" [] [HNode.text "Lamps went on."]]]]]

/-- A long open article plus one element whose class contains `PayWall`. -/
def c4witDoc : HDoc :=
  [HNode.elem "html" [] [HNode.elem "body" []
    [HNode.elem "div" [("class", "PayWall-banner wide")] [HNode.text "Read all about it"],
     HNode.elem "article" []
       [HNode.elem "p" [] [HNode.text "Item one of the day."],
        HNode.elem "p" [] [HNode.text "Item two of the day."],
        HNode.elem "p" [] [HNode.text "Item three of the day."],
        HNode.elem "p" [] [HNode.text "Item four of the day."],
        HNode.elem "p" [] [HNode.text "Item five of the day."]]]]]

/-- The paywall-classed node inside `c4witDoc`. -/
def c4witNode : HNode :=
  HNode.elem "div" [("class", "PayWall-banner wide")] [HNode.text "Read all about it"]

/-- An article whose whole text is the ten characters `Too short.`. -/
def c5shortDoc : HDoc :=
  [HNode.elem "html" [] [HNode.elem "body" [] [HNode.elem "article" []
    [HNode.elem "p" [] [HNode.text "Too short."]]]]]

/-- A document whose cleaned body text is comfortably non-empty. -/
def c6doc : HDoc :=
  [HNode.elem "html" [] [HNode.elem "body" [] [HNode.elem "article" []
    [HNode.elem "p" [] [HNode.text "Fresh bread reached the corner market today."]]]]]

/-- A document with a title tag and no meta tags at all. -/
def c7doc : HDoc :=
  [HNode.elem "html" []
    [HNode.elem "head" [] [HNode.elem "title" [] [HNode.text "T"]],
     HNode.elem "body" [] [HNode.elem "p" [] [HNode.text "x"]]]]

/-- A document with nothing to resolve any metadata field from. -/
def c7witDoc : HDoc :=
  [HNode.elem "html" [] [HNode.elem "body" [] [HNode.elem "p" [] [HNode.text "y"]]]]

/-- Two articles: the locator of the spec concatenates them, the code keeps
only the first. -/
def c8docMulti : HDoc :=
  [HNode.elem "html" [] [HNode.elem "body" []
    [HNode.elem "article" [] [HNode.elem "p" [] [HNode.text "First."]],
     HNode.elem "article" [] [HNode.elem "p" [] [HNode.text "Second."]]]]]

/-- An empty article followed by a non-empty main region. -/
def c8docEmptyArt : HDoc :=
  [HNode.elem "html" [] [HNode.elem "body" []
    [HNode.elem "article" [] [],
     HNode.elem "main" [] [HNode.text "M"]]]]

/-- The single article of the C8 witness document. -/
def c8witArticle : HNode :=
  HNode.elem "article" [] [HNode.elem "p" [] [HNode.text "Mild weather ahead."]]

/-- A document whose first article is `c8witArticle`. -/
def c8witDoc : HDoc :=
  [HNode.elem "html" [] [HNode.elem "body" [] [c8witArticle]]]

/-- No article element; a sign-in link sits in the site navigation and the
body holds five ordinary paragraphs. -/
def c10witDoc : HDoc :=
  [HNode.elem "html" [] [HNode.elem "body" []
    [HNode.elem "nav" [] [HNode.elem "a" [("href", "/login")] [HNode.text "Sign In"]],
     HNode.elem "div" []
       [HNode.elem "p" [] [HNode.text "A dry spell held."],
        HNode.elem "p" [] [HNode.text "Wells ran low."],
        HNode.elem "p" [] [HNode.text "Farmers met at noon."],
        HNode.elem "p" [] [HNode.text "Plans were drawn."],
        HNode.elem "p" [] [HNode.text "Help arrived at last."]]]]]

/-- The navigation link inside `c10witDoc`. -/
def c10witLink : HNode :=
  HNode.elem "a" [("href", "/login")] [HNode.text "Sign In"]

/-! ## Helper lemmas -/

/-- The extractors detector is the disjunction of its three checks in
source order. -/
theorem extractorsDetectPaywall_or (doc : HDoc) :
    extractorsDetectPaywall doc =
      (extractorsCheckSelector doc || extractorsCheckKeyword doc ||
       extractorsCheckButtons doc) := by
  unfold extractorsDetectPaywall
  split_ifs <;> simp_all

/-- The bypass detector is the guarded disjunction of its three checks in
source order. -/
theorem bypassDetectPaywall_or (doc : HDoc) :
    bypassDetectPaywall doc =
      (!doc.isEmpty &&
        (bypassCheckSelectors doc || bypassCheckIndicators doc ||
         bypassCheckShort doc)) := by
  unfold bypassDetectPaywall
  split_ifs <;> simp_all

/-- The bypass verdict is positive exactly when some reason is logged. -/
theorem bypassDetectPaywall_eq_reason (doc : HDoc) :
    bypassDetectPaywall doc = (bypassDetectReason doc).isSome := by
  unfold bypassDetectPaywall bypassDetectReason
  split_ifs <;> rfl

/-- The `has_paywall` field of the extractors result is the verdict of
`_detect_paywall` on the same parse. -/
theorem extractorsExtractContent_has_paywall
    (f : String → List Char) (doc : HDoc) (summary docTitle : String) :
    (extractorsExtractContent f doc summary docTitle).has_paywall =
      extractorsDetectPaywall doc := rfl

/-! ## C9 -/

/-- C9: for every parsed document and every string field name, the
extractors variant's `_extract_metadata` raises `TypeError` — it subscripts
the Python list `CONTENT_SELECTORS` inherited from `BaseScraper` with a
string key — and consequently the author/date extraction lines of
`_parse_article` always raise, so that path can never return a value. -/
theorem extract_metadata_string_key_type_error (doc : HDoc) (field : String) :
    extractorsExtractMetadataField doc field = Except.error PyError.typeError ∧
    parseArticleMeta doc = Except.error PyError.typeError :=
  ⟨rfl, rfl⟩

/-! ## C4 -/

/-- C4: any document containing an element whose class attribute contains
the string `paywall` (case-folded, as the code matches) makes the pipeline
return `has_paywall = true`, whatever the content and its length are. -/
theorem paywall_class_forces_has_paywall
    (getTextOfHtml : String → List Char) (doc : HDoc) (summary docTitle : String)
    (n : HNode) (v : String)
    (hn : n ∈ HNode.allNodesList doc)
    (hv : n.attr "class" = some v)
    (hc : containsSub (pyLower v.toList) "paywall".toList = true) :
    (extractorsExtractContent getTextOfHtml doc summary docTitle).has_paywall = true := by
  have hcls : hasPaywallClass n = true := by
    unfold hasPaywallClass
    rw [hv]
    exact List.any_eq_true.mpr ⟨"paywall", by simp [paywallClasses], hc⟩
  have hsel : extractorsCheckSelector doc = true := by
    unfold extractorsCheckSelector
    have hmem : n ∈ findAllDoc doc hasPaywallClass := List.mem_filter.mpr ⟨hn, hcls⟩
    cases hne : (findAllDoc doc hasPaywallClass).isEmpty
    · rfl
    · rw [List.isEmpty_iff] at hne
      rw [hne] at hmem
      cases hmem
  rw [extractorsExtractContent_has_paywall, extractorsDetectPaywall_or, hsel]
  rfl

/-- Witness for C4 at a concrete page: a `PayWall-banner wide` classed div
plus a five-paragraph article. -/
theorem paywall_class_forces_has_paywall_witness :
    c4witNode ∈ HNode.allNodesList c4witDoc ∧
    HNode.attr c4witNode "class" = some "PayWall-banner wide" ∧
    containsSub (pyLower "PayWall-banner wide".toList) "paywall".toList = true ∧
    (extractorsExtractContent plainText c4witDoc "A long and open story." "T").has_paywall
      = true :=
  ⟨by decide, by decide, by decide,
   paywall_class_forces_has_paywall plainText c4witDoc "A long and open story." "T"
     c4witNode "PayWall-banner wide" (by decide) (by decide) (by decide)⟩

/-! ## C10 -/

/-- C10: when a document has no `article` element, check 3 of
`_detect_paywall` scans every button and link of the whole document
(`soup.find('article') or soup`), so a subscribe/sign-in/log-in/register
link anywhere — site navigation included — yields a paywalled verdict. -/
theorem no_article_nav_button_flags_paywall (doc : HDoc) (b : HNode)
    (hart : findTag doc "article" = none)
    (hb : b ∈ findAllDoc doc isButtonOrLink)
    (hw : buttonHasActionWord b = true) :
    extractorsDetectPaywall doc = true := by
  have h3 : extractorsCheckButtons doc = true := by
    unfold extractorsCheckButtons
    rw [hart]
    exact List.any_eq_true.mpr ⟨b, hb, hw⟩
  rw [extractorsDetectPaywall_or, h3]
  simp

/-- Witness for C10: a sign-in link in the navigation of an article-less,
five-paragraph page is enough for a paywalled verdict. -/
theorem no_article_nav_button_flags_paywall_witness :
    findTag c10witDoc "article" = none ∧
    c10witLink ∈ findAllDoc c10witDoc isButtonOrLink ∧
    buttonHasActionWord c10witLink = true ∧
    extractorsDetectPaywall c10witDoc = true :=
  ⟨by decide, by decide, by decide,
   no_article_nav_button_flags_paywall c10witDoc c10witLink
     (by decide) (by decide) (by decide)⟩

/-! ## C1 -/

/-- C1 (amended): paywall detection is split across two functions, neither
of which evaluates all four claimed checks.  The extractors
`_detect_paywall` is the ordered short-circuiting disjunction of its
selector, keyword and action-button checks and has no short-content check;
the bypass `detect_paywall` is the ordered short-circuiting disjunction of
its selector, indicator and short-content checks and has no action-button
check; within the bypass detector the short-content reason is indeed logged
only when its selector and indicator checks are negative. -/
theorem paywall_checks_split_across_detectors (doc : HDoc) :
    extractorsDetectPaywall doc =
      (extractorsCheckSelector doc || extractorsCheckKeyword doc ||
       extractorsCheckButtons doc) ∧
    bypassDetectPaywall doc =
      (!doc.isEmpty &&
        (bypassCheckSelectors doc || bypassCheckIndicators doc ||
         bypassCheckShort doc)) ∧
    (bypassDetectReason doc = some BypassReason.limitedContent →
      bypassCheckSelectors doc = false ∧ bypassCheckIndicators doc = false) := by
  refine ⟨extractorsDetectPaywall_or doc, bypassDetectPaywall_or doc, ?_⟩
  intro hr
  unfold bypassDetectReason at hr
  split_ifs at hr with h0 h1 h2 h3 <;> simp_all

/-- Counterexample to C1 as stated: in `c1docButtons` the claimed check (3)
is positive — a log-in link inside the article — yet the bypass detector
returns an open verdict, having no action-button check; in `c1docShort` the
claimed check (4) is positive — one paragraph — with checks (1)–(3) all
negative, yet the extractors detector returns an open verdict, having no
short-content check.  So neither cited detector evaluates the four checks
of the claim. -/
theorem paywall_four_check_cascade_counterexample :
    extractorsCheckButtons c1docButtons = true ∧
    bypassDetectPaywall c1docButtons = false ∧
    bypassCheckShort c1docShort = true ∧
    bypassCheckSelectors c1docShort = false ∧
    bypassCheckIndicators c1docShort = false ∧
    extractorsCheckSelector c1docShort = false ∧
    extractorsCheckKeyword c1docShort = false ∧
    extractorsCheckButtons c1docShort = false ∧
    extractorsDetectPaywall c1docShort = false := by decide

/-- Witness for the C1 theorem at `c1witDoc`, where the logged reason is
the limited-content one. -/
theorem paywall_checks_split_across_detectors_witness :
    bypassDetectReason c1witDoc = some BypassReason.limitedContent ∧
    bypassCheckSelectors c1witDoc = false ∧ bypassCheckIndicators c1witDoc = false := by
  refine ⟨by decide, ?_, ?_⟩
  · exact ((paywall_checks_split_across_detectors c1witDoc).2.2 (by decide)).1
  · exact ((paywall_checks_split_across_detectors c1witDoc).2.2 (by decide)).2

/-! ## C3 -/

/-- C3 (amended): the short-content heuristic lives only in the bypass
detector and only fires when the document has an article or main element:
whenever `find('article') or find('main')` yields a region with at most
three paragraph descendants, the bypass verdict is paywalled.  (On
documents without such a region the claim as stated fails; see the
counterexample.) -/
theorem short_region_flags_paywall (doc : HDoc) (a : HNode)
    (hne : doc ≠ [])
    (ha : pyOr (findTag doc "article") (findTag doc "main") = some a)
    (hp : (a.descendants.filter (HNode.tagIs "p")).length ≤ 3) :
    bypassDetectPaywall doc = true := by
  have hshort : bypassCheckShort doc = true := by
    unfold bypassCheckShort
    rw [ha]
    exact decide_eq_true hp
  have h0 : doc.isEmpty = false := by
    cases doc with
    | nil => exact absurd rfl hne
    | cons x xs => rfl
  rw [bypassDetectPaywall_or, hshort, h0]
  simp

/-- Counterexample to C3 as stated: one paragraph, no paywall markers, yet
both detectors return an open verdict — the document has neither an article
nor a main element, so the bypass short-content block is skipped, and the
extractors detector has no short-content check at all. -/
theorem short_content_heuristic_counterexample :
    (findAllDoc c3openDoc (HNode.tagIs "p")).length ≤ 3 ∧
    bypassCheckSelectors c3openDoc = false ∧
    bypassCheckIndicators c3openDoc = false ∧
    extractorsCheckSelector c3openDoc = false ∧
    extractorsCheckKeyword c3openDoc = false ∧
    bypassDetectPaywall c3openDoc = false ∧
    extractorsDetectPaywall c3openDoc = false := by decide

/-- Witness for the C3 theorem: a marker-free three-paragraph article is
flagged by the bypass detector. -/
theorem short_region_flags_paywall_witness :
    c3witDoc ≠ [] ∧
    pyOr (findTag c3witDoc "article") (findTag c3witDoc "main")
      = some (HNode.elem "article" []
          [HNode.elem "p" [] [HNode.text "Rain fell."],
           HNode.elem "p" [] [HNode.text "Boats came home."],
           HNode.elem "p" [] [HNode.text "Lamps went on."]]) ∧
    bypassDetectPaywall c3witDoc = true := by
  refine ⟨by decide, by decide, ?_⟩
  exact short_region_flags_paywall c3witDoc
    (HNode.elem "article" []
      [HNode.elem "p" [] [HNode.text "Rain fell."],
       HNode.elem "p" [] [HNode.text "Boats came home."],
       HNode.elem "p" [] [HNode.text "Lamps went on."]])
    (by decide) (by decide) (by decide)

/-! ## C5 -/

/-- C5 (amended): in the scrapers variant, once the html parses to a
non-empty document, `extract_content` raises its too-short `ValueError`
exactly when the cleaned main-content length is below `min_length`, and the
empty-html error cannot occur there; the extractors variant, by contrast,
never raises on short content (see the counterexample). -/
theorem content_too_short_exactly_below_min
    (minLength : Nat) (doc : HDoc) (now : String) (hne : doc ≠ []) :
    (scrapersExtractContent minLength doc now = Except.error ScrapeError.contentTooShort ↔
      (scrapersCleanContent (scrapersExtractMainContent doc)).length < minLength) ∧
    scrapersExtractContent minLength doc now ≠ Except.error ScrapeError.emptyHtml := by
  have h0 : doc.isEmpty = false := by
    cases doc with
    | nil => exact absurd rfl hne
    | cons x xs => rfl
  unfold scrapersExtractContent
  by_cases hlen : (scrapersCleanContent (scrapersExtractMainContent doc)).length < minLength <;>
    simp [h0, hlen]

/-- Witness for the C5 theorem: a ten-character content region with
`min_length = 100` raises the too-short error in the scrapers variant. -/
theorem content_too_short_exactly_below_min_witness :
    c5shortDoc ≠ [] ∧
    scrapersExtractContent 100 c5shortDoc "2024-01-01T00:00:00"
      = Except.error ScrapeError.contentTooShort := by
  refine ⟨by decide, ?_⟩
  have h := content_too_short_exactly_below_min 100 c5shortDoc "2024-01-01T00:00:00" (by decide)
  refine h.1.mpr ?_
  have he : scrapersCleanContent (scrapersExtractMainContent c5shortDoc)
      = "Too short.".toList := by
    simp [scrapersExtractMainContent, findTag, findDoc, findAllDoc, HNode.allNodesList,
      HNode.allNodes, HNode.tagIs, HNode.chars, HNode.charsList, c5shortDoc,
      scrapersCleanContent, collapseWs, pySplitlines, pySplitlinesAux, joinNl,
      pyStrip, pyIsSpace]
  rw [he]
  decide

/-- Counterexample to C5 as stated: the extractors pipeline, fed the
ten-character content `Too short.` with its default
`min_content_length = 100`, does not fail — it returns an ordinary result
record (the source only logs a warning on short content). -/
theorem short_content_returns_normally_counterexample :
    extractorsExtractContent plainText c5shortDoc "Too short." "T" =
      { content := "Too short."
        metadata := { title := "T", author := "", date := "", canonical_url := "" }
        word_count := 2
        has_paywall := false } := by
  have hclean : cleanContentText (plainText "Too short.") = "Too short.".toList := by
    simp [plainText, cleanContentText, pySplitWs, pySplitWsAux, pyIsSpace, joinSpace,
      removeURLs, urlChar, removeSpecial, keepChar, pyWordChar, pyStrip]
  simp [extractorsExtractContent, hclean]
  decide

/-! ## C6 -/

/-- C6 (amended): the scrapers pipeline is deterministic in everything but
its `extracted_at` field, which is stamped from the wall clock at each
invocation: at any two clock readings the content, the metadata and the
error behaviour coincide. -/
theorem pipeline_deterministic_except_timestamp
    (minLength : Nat) (doc : HDoc) (t1 t2 : String) :
    (scrapersExtractContent minLength doc t1).map (fun r => (r.content, r.metadata)) =
      (scrapersExtractContent minLength doc t2).map (fun r => (r.content, r.metadata)) := by
  unfold scrapersExtractContent
  split_ifs with h0
  · rfl
  · by_cases hlen : (scrapersCleanContent (scrapersExtractMainContent doc)).length < minLength
    · simp [hlen]
    · simp only [hlen, if_false]
      rfl

/-- Counterexample to C6 as stated: two invocations of the scrapers
`extract_content` on the identical document at different clock readings
return records that are not byte-identical — `extracted_at` differs. -/
theorem pipeline_two_invocations_differ_counterexample :
    scrapersExtractContent 0 c6doc "2024-01-01T00:00:00"
      ≠ scrapersExtractContent 0 c6doc "2024-01-01T00:00:01" := by
  have h0 : (c6doc : HDoc).isEmpty = false := by decide
  unfold scrapersExtractContent
  simp [h0, Nat.not_lt_zero]

/-! ## C7 -/

/-- C7 (amended): metadata extraction is total in both variants and every
unresolved field of the extractors variant is the empty string; in the
scrapers variant the unresolved title/author default to the empty string
but the unresolved date stays `None` (see the counterexample). -/
theorem metadata_defaults (doc : HDoc) :
    ((findMetaWith doc "name" "author").bind (fun m => truthyAttr m "content") = none →
     (findMetaWith doc "property" "article:author").bind (fun m => truthyAttr m "content") = none →
     findDoc doc bylineClass = none →
     extractorsExtractAuthor doc = "") ∧
    ((findAllTag doc "meta").find?
        (fun m => (m.attr "name").any (fun v => dateMetaNames.contains v)) = none →
     findTag doc "time" = none →
     extractorsExtractDate doc = "") ∧
    (findDoc doc (fun n => HNode.tagIs "link" n && n.attr "rel" == some "canonical") = none →
     extractorsExtractCanonical doc = "") ∧
    (findTag doc "title" = none → (scrapersExtractMetadata doc).title = "") ∧
    (scrapersMetaLookup doc ["author", "article:author"] = none →
      (scrapersExtractMetadata doc).author = "") ∧
    (scrapersMetaLookup doc ["article:published_time", "date", "pubdate"] = none →
      (scrapersExtractMetadata doc).date = none) := by
  refine ⟨?_, ?_, ?_, ?_, ?_, ?_⟩
  · intro h1 h2 h3
    unfold extractorsExtractAuthor
    rw [h1, h2, h3]
  · intro h1 h2
    unfold extractorsExtractDate
    rw [h1, h2]
  · intro h1
    unfold extractorsExtractCanonical
    rw [h1]
  · intro h1
    unfold scrapersExtractMetadata
    rw [h1]
  · intro h1
    unfold scrapersExtractMetadata
    rw [h1]
    rfl
  · intro h1
    unfold scrapersExtractMetadata
    rw [h1]

/-- Witness for the C7 theorem at a document carrying no metadata markup. -/
theorem metadata_defaults_witness :
    extractorsExtractAuthor c7witDoc = "" ∧
    extractorsExtractDate c7witDoc = "" ∧
    extractorsExtractCanonical c7witDoc = "" ∧
    (scrapersExtractMetadata c7witDoc).title = "" ∧
    (scrapersExtractMetadata c7witDoc).author = "" ∧
    (scrapersExtractMetadata c7witDoc).date = none := by
  have h := metadata_defaults c7witDoc
  exact ⟨h.1 (by decide) (by decide) (by decide), h.2.1 (by decide) (by decide),
         h.2.2.1 (by decide), h.2.2.2.1 (by decide), h.2.2.2.2.1 (by decide),
         h.2.2.2.2.2 (by decide)⟩

/-- Counterexample to C7 as stated: on a titled page with no date markup,
the scrapers `extract_metadata` returns `None` for the date — not the empty
string the claim promises. -/
theorem unresolved_date_is_none_counterexample :
    (scrapersExtractMetadata c7doc).date = none ∧
    (scrapersExtractMetadata c7doc).date ≠ some "" ∧
    (scrapersExtractMetadata c7doc).title = "T" := by decide

/-! ## C8 -/

/-- C8 (amended): the scrapers `_extract_main_content` tries `article`,
`main`, `body` in that order and returns the text of the first element
found, whether or not that text is empty; only the first article is ever
used, and the `[role=main]` and content-class candidates of the claim are
never consulted. -/
theorem main_content_first_found_tag (doc : HDoc) :
    (∀ a, findTag doc "article" = some a → scrapersExtractMainContent doc = a.chars) ∧
    (findTag doc "article" = none → ∀ m, findTag doc "main" = some m →
      scrapersExtractMainContent doc = m.chars) ∧
    (findTag doc "article" = none → findTag doc "main" = none →
      scrapersExtractMainContent doc = ((findTag doc "body").map HNode.chars).getD []) := by
  refine ⟨?_, ?_, ?_⟩
  · intro a ha
    unfold scrapersExtractMainContent
    rw [ha]
  · intro ha m hm
    unfold scrapersExtractMainContent
    rw [ha, hm]
  · intro ha hm
    unfold scrapersExtractMainContent
    rw [ha, hm]
    cases hb : findTag doc "body" <;> simp [hb]

/-- Counterexample to C8 as stated, with the locator modelled from the
spec's words alongside: on two articles the code returns only the first
article's text while the claimed algorithm concatenates both; on an empty
article followed by a non-empty main region the code returns the empty
string while the claimed algorithm skips to the main region. -/
theorem main_content_locator_counterexample :
    scrapersExtractMainContent c8docMulti = "First.".toList ∧
    specLocateContent c8docMulti = "First. Second.".toList ∧
    scrapersExtractMainContent c8docEmptyArt = [] ∧
    specLocateContent c8docEmptyArt = "M".toList ∧
    scrapersExtractMainContent c8docMulti ≠ specLocateContent c8docMulti ∧
    scrapersExtractMainContent c8docEmptyArt ≠ specLocateContent c8docEmptyArt := by
  decide

/-- Witness for the C8 theorem: the first (and only) article's text is
returned. -/
theorem main_content_first_found_tag_witness :
    findTag c8witDoc "article" = some c8witArticle ∧
    scrapersExtractMainContent c8witDoc = HNode.chars c8witArticle :=
  ⟨by decide, (main_content_first_found_tag c8witDoc).1 c8witArticle (by decide)⟩

/-! ## C2 -/

/-- Tokens produced by the whitespace split carry no whitespace characters. -/
theorem pySplitWsAux_tokens_nonspace :
    ∀ (l acc : List Char), (∀ c ∈ acc, pyIsSpace c = false) →
      ∀ t ∈ pySplitWsAux l acc, ∀ c ∈ t, pyIsSpace c = false := by
  intro l
  induction l with
  | nil =>
    intro acc hacc t ht c hc
    unfold pySplitWsAux at ht
    split_ifs at ht with h
    · cases ht
    · rw [List.mem_singleton] at ht
      subst ht
      exact hacc c (List.mem_reverse.mp hc)
  | cons a l ih =>
    intro acc hacc t ht c hc
    unfold pySplitWsAux at ht
    split_ifs at ht with h1 h2
    · exact ih [] (by intro d hd; cases hd) t ht c hc
    · rcases List.mem_cons.mp ht with rfl | ht2
      · exact hacc c (List.mem_reverse.mp hc)
      · exact ih [] (by intro d hd; cases hd) t ht2 c hc
    · refine ih (a :: acc) ?_ t ht c hc
      intro d hd
      rcases List.mem_cons.mp hd with rfl | hd2
      · simpa using h1
      · exact hacc d hd2

/-- Every character of a space-joined token list is a space or comes from
one of the tokens. -/
theorem mem_joinSpace :
    ∀ (ts : List (List Char)) (c : Char), c ∈ joinSpace ts →
      c = ' ' ∨ ∃ t ∈ ts, c ∈ t := by
  intro ts
  induction ts with
  | nil =>
    intro c hc
    rw [joinSpace] at hc
    cases hc
  | cons t ts ih =>
    intro c hc
    cases ts with
    | nil =>
      rw [joinSpace] at hc
      exact Or.inr ⟨t, List.mem_cons_self _ _, hc⟩
    | cons t2 ts2 =>
      have he : joinSpace (t :: t2 :: ts2) = t ++ ' ' :: joinSpace (t2 :: ts2) := rfl
      rw [he] at hc
      rcases List.mem_append.mp hc with h | h
      · exact Or.inr ⟨t, List.mem_cons_self _ _, h⟩
      · rcases List.mem_cons.mp h with rfl | h2
        · exact Or.inl rfl
        · rcases ih c h2 with h3 | ⟨u, hu, hcu⟩
          · exact Or.inl h3
          · exact Or.inr ⟨u, List.mem_cons_of_mem _ hu, hcu⟩

/-- URL removal only deletes characters. -/
theorem removeURLs_subset : ∀ (l : List Char), ∀ c ∈ removeURLs l, c ∈ l := by
  intro l
  induction l using removeURLs.induct with
  | case1 rest htake ih =>
    intro c hc
    rw [removeURLs, if_pos htake] at hc
    rcases List.mem_cons.mp hc with rfl | hc2
    · exact List.mem_cons_self _ _
    · exact List.mem_cons_of_mem _ (ih c hc2)
  | case2 rest htake ih =>
    intro c hc
    rw [removeURLs, if_neg htake] at hc
    have h3 : c ∈ rest := (List.dropWhile_sublist urlChar).subset (ih c hc)
    simp [h3]
  | case3 rest htake ih =>
    intro c hc
    rw [removeURLs, if_pos htake] at hc
    rcases List.mem_cons.mp hc with rfl | hc2
    · exact List.mem_cons_self _ _
    · exact List.mem_cons_of_mem _ (ih c hc2)
  | case4 rest htake ih =>
    intro c hc
    rw [removeURLs, if_neg htake] at hc
    have h3 : c ∈ rest := (List.dropWhile_sublist urlChar).subset (ih c hc)
    simp [h3]
  | case5 a cs h1 h2 ih =>
    intro c hc
    simp only [removeURLs, h1, h2] at hc
    rcases List.mem_cons.mp hc with rfl | hc2
    · exact List.mem_cons_self _ _
    · exact List.mem_cons_of_mem _ (ih c hc2)
  | case6 =>
    intro c hc
    rw [removeURLs] at hc
    cases hc

/-- The first character surviving a `dropWhile` fails the predicate. -/
theorem dropWhile_head_not (p : Char → Bool) :
    ∀ (l : List Char) (c : Char), (l.dropWhile p).head? = some c → p c = false := by
  intro l
  induction l with
  | nil => intro c h; cases h
  | cons a l ih =>
    intro c h
    rw [List.dropWhile_cons] at h
    split_ifs at h with hp
    · exact ih c h
    · rw [List.head?_cons] at h
      injection h with h2
      subst h2
      simpa using hp

/-- Stripping only deletes characters. -/
theorem pyStrip_subset (l : List Char) : ∀ c ∈ pyStrip l, c ∈ l := by
  intro c hc
  unfold pyStrip at hc
  rw [List.mem_reverse] at hc
  have h1 := (List.dropWhile_sublist pyIsSpace).subset hc
  rw [List.mem_reverse] at h1
  exact (List.dropWhile_sublist pyIsSpace).subset h1

/-- A stripped list starts with a non-whitespace character, if any. -/
theorem pyStrip_head (l : List Char) :
    (pyStrip l).head?.all (fun c => !pyIsSpace c) = true := by
  cases hh : (pyStrip l).head? with
  | none => rfl
  | some c =>
    unfold pyStrip at hh
    rw [List.head?_reverse] at hh
    have hzne : (l.dropWhile pyIsSpace).reverse.dropWhile pyIsSpace ≠ [] := by
      intro h0
      rw [h0] at hh
      cases hh
    obtain ⟨w, hw⟩ := List.dropWhile_suffix (l := (l.dropWhile pyIsSpace).reverse) pyIsSpace
    have h2 : ((l.dropWhile pyIsSpace).reverse).getLast? = some c := by
      rw [← hw, List.getLast?_append_of_ne_nil w hzne]
      exact hh
    rw [List.getLast?_reverse] at h2
    have h3 := dropWhile_head_not pyIsSpace l c h2
    simp [h3]

/-- A stripped list ends with a non-whitespace character, if any. -/
theorem pyStrip_getLast (l : List Char) :
    (pyStrip l).getLast?.all (fun c => !pyIsSpace c) = true := by
  cases hh : (pyStrip l).getLast? with
  | none => rfl
  | some c =>
    unfold pyStrip at hh
    rw [List.getLast?_reverse] at hh
    have h3 := dropWhile_head_not pyIsSpace _ c hh
    simp [h3]

/-- Every whitespace character surviving `_clean_content` is a plain
space: the join step only introduces plain spaces between whitespace-free
tokens, and the later steps only delete characters. -/
theorem cleanContentText_space_is_blank (l : List Char) :
    ∀ c ∈ cleanContentText l, pyIsSpace c = true → c = ' ' := by
  intro c hc hsp
  unfold cleanContentText at hc
  have h3 := pyStrip_subset _ c hc
  have h2 := (List.mem_filter.mp h3).1
  have h1 := removeURLs_subset _ c h2
  rcases mem_joinSpace _ c h1 with h | ⟨t, ht, hct⟩
  · exact h
  · have h0 := pySplitWsAux_tokens_nonspace l [] (by intro d hd; cases hd) t ht c hct
    rw [h0] at hsp
    cases hsp

/-- C2: every result of the extractors pipeline has `word_count` equal to
the whitespace-token count of its `content` string, and `content` is
whitespace-normalized: its only whitespace character is the plain space —
so it contains no blank lines at all — and it neither starts nor ends with
whitespace. -/
theorem word_count_matches_normalized_content
    (getTextOfHtml : String → List Char) (doc : HDoc) (summary docTitle : String) :
    (extractorsExtractContent getTextOfHtml doc summary docTitle).word_count =
      (pySplitWs
        (extractorsExtractContent getTextOfHtml doc summary docTitle).content.toList).length ∧
    ((extractorsExtractContent getTextOfHtml doc summary docTitle).content.toList.all
      (fun c => !pyIsSpace c || c == ' ')) = true ∧
    ((extractorsExtractContent getTextOfHtml doc summary docTitle).content.toList.head?.all
      (fun c => !pyIsSpace c)) = true ∧
    ((extractorsExtractContent getTextOfHtml doc summary docTitle).content.toList.getLast?.all
      (fun c => !pyIsSpace c)) = true := by
  have key : ∀ (x : List Char),
      (cleanContentText x).all (fun c => !pyIsSpace c || c == ' ') = true := by
    intro x
    rw [List.all_eq_true]
    intro c hcmem
    by_cases hsp : pyIsSpace c = true
    · have hb := cleanContentText_space_is_blank x c hcmem hsp
      subst hb
      simp
    · simp only [Bool.not_eq_true] at hsp
      simp [hsp]
  refine ⟨rfl, key _, pyStrip_head _, pyStrip_getLast _⟩
